import Mathlib

/-!
Verification of the bridge-and-supervise engine of `mcp_pipe.py`
(stdio <-> WebSocket pipe with supervised reconnection).

The Python source is shallowly embedded: each relevant function or
control-flow skeleton becomes a Lean definition, and the spec's claims
become theorems about those definitions.
-/

namespace McpPipe

/-! ## Reconnection backoff (`connect_with_retry`, mcp_pipe.py lines 210-245)

```
INITIAL_BACKOFF = 1
MAX_BACKOFF = 600
...
backoff = INITIAL_BACKOFF
while True:
    if reconnect_attempt > 0: await asyncio.sleep(backoff)
    ... connect ...
    except Exception:
        reconnect_attempt += 1
        backoff = min(backoff * 2, MAX_BACKOFF)
        jitter = random.uniform(0, min(1.0, backoff))
        backoff = backoff + jitter
```

The random jitter is modelled as an arbitrary sequence `jit : Nat -> Rat`;
`jit n` is the value `random.uniform` returned after the n-th consecutive
failure.  `backoff jit n` is the value of the Python variable `backoff`
after n failures, i.e. the duration slept before reconnection attempt n.
-/

def INITIAL_BACKOFF : ℚ := 1

def MAX_BACKOFF : ℚ := 600

def backoff (jit : ℕ → ℚ) : ℕ → ℚ
  | 0 => INITIAL_BACKOFF
  | n + 1 => min (backoff jit n * 2) MAX_BACKOFF + jit (n + 1)

/-- `random.uniform(0, min(1.0, backoff))` returns a value between the two
bounds, where the bound is computed from the just-capped doubled value. -/
def ValidJitter (jit : ℕ → ℚ) : Prop :=
  ∀ n : ℕ, 0 ≤ jit (n + 1) ∧
    jit (n + 1) ≤ min 1 (min (backoff jit n * 2) MAX_BACKOFF)

/-- The all-zero jitter sequence (the "jitter is zero" reading of the spec). -/
def zeroJitter : ℕ → ℚ := fun _ => 0

/-- Every backoff value is at least 1 (the initial value), for any
nonnegative jitter sequence. -/
theorem one_le_backoff (jit : ℕ → ℚ) (hj : ∀ n, 0 ≤ jit (n + 1)) (n : ℕ) :
    1 ≤ backoff jit n := by
  induction n with
  | zero => norm_num [backoff, INITIAL_BACKOFF]
  | succ k ih =>
    have h0 := hj k
    simp only [backoff]
    have : (1:ℚ) ≤ min (backoff jit k * 2) MAX_BACKOFF := by
      refine le_min (by linarith) (by norm_num [MAX_BACKOFF])
    linarith

theorem zeroJitter_valid : ValidJitter zeroJitter := by
  intro n
  refine ⟨le_refl 0, ?_⟩
  simp only [zeroJitter]
  have h1 : (1:ℚ) ≤ backoff zeroJitter n := one_le_backoff _ (fun _ => le_refl 0) n
  have h2 : (0:ℚ) ≤ MAX_BACKOFF := by norm_num [MAX_BACKOFF]
  refine le_min (by norm_num) (le_min (by linarith) h2)

/-- With zero jitter, the backoff slept before attempt n is exactly
`min (INITIAL_BACKOFF * 2 ^ n) MAX_BACKOFF`. -/
theorem backoff_zeroJitter (n : ℕ) :
    backoff zeroJitter n = min (INITIAL_BACKOFF * 2 ^ n) MAX_BACKOFF := by
  induction n with
  | zero => norm_num [backoff, INITIAL_BACKOFF, MAX_BACKOFF]
  | succ k ih =>
    simp only [backoff, zeroJitter, add_zero, ih]
    rcases le_or_lt (INITIAL_BACKOFF * 2 ^ k) MAX_BACKOFF with h | h
    · rw [min_eq_left h]
      rw [pow_succ]
      ring_nf
    · rw [min_eq_right h.le]
      have h600 : (0:ℚ) ≤ MAX_BACKOFF := by norm_num [MAX_BACKOFF]
      have e1 : min (MAX_BACKOFF * 2) MAX_BACKOFF = MAX_BACKOFF :=
        min_eq_right (by linarith)
      have hp : (0:ℚ) ≤ 2 ^ k := by positivity
      have e2 : min (INITIAL_BACKOFF * 2 ^ (k + 1)) MAX_BACKOFF = MAX_BACKOFF := by
        apply min_eq_right
        rw [pow_succ]
        nlinarith
      rw [e1, e2]

/-- After at least one failure, the slept backoff never exceeds
`MAX_BACKOFF + 1` (the cap applies before jitter is added). -/
theorem backoff_le_max_add_one (jit : ℕ → ℚ) (hj : ValidJitter jit) (n : ℕ) :
    backoff jit (n + 1) ≤ MAX_BACKOFF + 1 := by
  have h := (hj n).2
  simp only [backoff]
  have h1 : min (backoff jit n * 2) MAX_BACKOFF ≤ MAX_BACKOFF := min_le_right _ _
  have h2 : jit (n + 1) ≤ 1 := le_trans h (min_le_left _ _)
  linarith

/-- The closed-form base value the spec's backoff formula claims for
attempt `n`: `min (INITIAL_BACKOFF * 2 ^ n) MAX_BACKOFF`. -/
def backoffSpecBase (n : ℕ) : ℚ := min (INITIAL_BACKOFF * 2 ^ n) MAX_BACKOFF

/-- Claim C3 as stated: with jitter zero the slept value equals the
closed-form base, and with jitter every slept value lies in
`[base, base + min 1 base]` with `base` given by the closed form. -/
def ClaimC3 : Prop :=
  (∀ n : ℕ, backoff zeroJitter n = backoffSpecBase n) ∧
  ∀ jit : ℕ → ℚ, ValidJitter jit → ∀ n : ℕ, 1 ≤ n →
    backoffSpecBase n ≤ backoff jit n ∧
    backoff jit n ≤ backoffSpecBase n + min 1 (backoffSpecBase n)

/-- Claim C4 as stated: within one retry sequence the slept durations are
monotonically non-decreasing and each is at most `MAX_BACKOFF`. -/
def ClaimC4 : Prop :=
  ∀ jit : ℕ → ℚ, ValidJitter jit → ∀ n : ℕ, 1 ≤ n →
    backoff jit n ≤ backoff jit (n + 1) ∧ backoff jit n ≤ MAX_BACKOFF

/-- A jitter draw of 1 after each of the first two failures (allowed by
`random.uniform(0, min(1.0, backoff))`, whose upper bound is 1 here). -/
def c3Jitter : ℕ → ℚ := fun n => if n = 1 ∨ n = 2 then 1 else 0

theorem c3Jitter_nonneg : ∀ n : ℕ, 0 ≤ c3Jitter (n + 1) := by
  intro n
  simp only [c3Jitter]
  split <;> norm_num

theorem c3Jitter_valid : ValidJitter c3Jitter := by
  intro n
  refine ⟨c3Jitter_nonneg n, ?_⟩
  match n with
  | 0 => norm_num [c3Jitter, backoff, INITIAL_BACKOFF, MAX_BACKOFF]
  | 1 => norm_num [c3Jitter, backoff, INITIAL_BACKOFF, MAX_BACKOFF]
  | (k + 2) =>
    have hz : c3Jitter (k + 2 + 1) = 0 := by
      have h3 : ¬ (k + 3 = 1 ∨ k + 3 = 2) := by omega
      simp [c3Jitter, h3]
    rw [hz]
    have h1 := one_le_backoff c3Jitter c3Jitter_nonneg (k + 2)
    exact le_min (by norm_num) (le_min (by linarith) (by norm_num [MAX_BACKOFF]))

/-- A jitter draw of 1 after the tenth failure, zero otherwise. -/
def c4Jitter : ℕ → ℚ := fun n => if n = 10 then 1 else 0

theorem c4Jitter_nonneg : ∀ n : ℕ, 0 ≤ c4Jitter (n + 1) := by
  intro n
  simp only [c4Jitter]
  split <;> norm_num

theorem c4Jitter_valid : ValidJitter c4Jitter := by
  intro n
  refine ⟨c4Jitter_nonneg n, ?_⟩
  by_cases h : n = 9
  · subst h
    have h9 : backoff c4Jitter 9 = 512 := by
      norm_num [backoff, c4Jitter, INITIAL_BACKOFF, MAX_BACKOFF]
    rw [h9]
    norm_num [c4Jitter, MAX_BACKOFF]
  · have hz : c4Jitter (n + 1) = 0 := by
      have h10 : ¬ (n + 1 = 10) := by omega
      simp [c4Jitter, h10]
    rw [hz]
    have h1 := one_le_backoff c4Jitter c4Jitter_nonneg n
    exact le_min (by norm_num) (le_min (by linarith) (by norm_num [MAX_BACKOFF]))

/-- C3. The claim as stated is false: jitter is added into the `backoff`
variable itself, so it compounds into the next doubling.  With unit jitter
after the first two failures, the value slept before attempt 2 is 7,
outside the claimed interval `[4, 5]` around `min (1 * 2 ^ 2) 600 = 4`. -/
theorem c3_counterexample : ¬ ClaimC3 := by
  intro hc
  have h := (hc.2 c3Jitter c3Jitter_valid 2 (by norm_num)).2
  have h2 : backoff c3Jitter 2 = 7 := by
    norm_num [backoff, c3Jitter, INITIAL_BACKOFF, MAX_BACKOFF]
  rw [h2] at h
  norm_num [backoffSpecBase, INITIAL_BACKOFF, MAX_BACKOFF] at h

/-- C3 (amended). With zero jitter the value slept before attempt n is
exactly `min (INITIAL_BACKOFF * 2 ^ n) MAX_BACKOFF`; with jitter, each
slept value lies in `[base, base + min 1 base]` where `base` is
`min (previous slept value * 2) MAX_BACKOFF` computed from the previous
(already jittered) slept value, not from the closed form. -/
theorem c3_backoff_amended :
    (∀ n : ℕ, backoff zeroJitter n = backoffSpecBase n) ∧
    ∀ jit : ℕ → ℚ, ValidJitter jit → ∀ n : ℕ,
      min (backoff jit n * 2) MAX_BACKOFF ≤ backoff jit (n + 1) ∧
      backoff jit (n + 1) ≤ min (backoff jit n * 2) MAX_BACKOFF
        + min 1 (min (backoff jit n * 2) MAX_BACKOFF) := by
  constructor
  · intro n
    exact backoff_zeroJitter n
  · intro jit hj n
    have h0 := (hj n).1
    have h1 := (hj n).2
    constructor
    · simp only [backoff]
      linarith
    · simp only [backoff]
      linarith

/-- Witness for `c3_backoff_amended` at concrete inputs. -/
theorem c3_backoff_amended_witness :
    backoff zeroJitter 2 = backoffSpecBase 2 ∧
    (min (backoff c3Jitter 1 * 2) MAX_BACKOFF ≤ backoff c3Jitter 2 ∧
      backoff c3Jitter 2 ≤ min (backoff c3Jitter 1 * 2) MAX_BACKOFF
        + min 1 (min (backoff c3Jitter 1 * 2) MAX_BACKOFF)) :=
  ⟨c3_backoff_amended.1 2, c3_backoff_amended.2 c3Jitter c3Jitter_valid 1⟩

/-- C4. The claim as stated is false: jitter is added after the
`min _ MAX_BACKOFF` cap, so a slept duration can reach 601 s > 600 s,
and the following duration (re-capped at 600) is then smaller, so the
sequence is not non-decreasing either. -/
theorem c4_counterexample : ¬ ClaimC4 := by
  intro hc
  have h := (hc c4Jitter c4Jitter_valid 10 (by norm_num)).2
  have h10 : backoff c4Jitter 10 = 601 := by
    norm_num [backoff, c4Jitter, INITIAL_BACKOFF, MAX_BACKOFF]
  rw [h10] at h
  norm_num [MAX_BACKOFF] at h

/-- C4 (amended). Each slept duration is at most `MAX_BACKOFF + 1`
(the cap applies before the at-most-1 jitter is added); the sequence is
non-decreasing from any value still at most `MAX_BACKOFF`; and with zero
jitter it is exactly non-decreasing and capped at `MAX_BACKOFF`. -/
theorem c4_backoff_amended :
    (∀ jit : ℕ → ℚ, ValidJitter jit → ∀ n : ℕ, 1 ≤ n →
      backoff jit n ≤ MAX_BACKOFF + 1) ∧
    (∀ jit : ℕ → ℚ, ValidJitter jit → ∀ n : ℕ,
      backoff jit n ≤ MAX_BACKOFF → backoff jit n ≤ backoff jit (n + 1)) ∧
    (∀ n : ℕ, backoff zeroJitter n ≤ backoff zeroJitter (n + 1) ∧
      backoff zeroJitter n ≤ MAX_BACKOFF) := by
  refine ⟨?_, ?_, ?_⟩
  · intro jit hj n hn
    obtain ⟨m, rfl⟩ : ∃ m, n = m + 1 := ⟨n - 1, by omega⟩
    exact backoff_le_max_add_one jit hj m
  · intro jit hj n hle
    have h0 := (hj n).1
    have h1 := one_le_backoff jit (fun k => (hj k).1) n
    have h2 : backoff jit n ≤ min (backoff jit n * 2) MAX_BACKOFF :=
      le_min (by linarith) hle
    simp only [backoff]
    linarith
  · intro n
    rw [backoff_zeroJitter n, backoff_zeroJitter (n + 1)]
    constructor
    · refine min_le_min ?_ le_rfl
      have hp : (0:ℚ) < 2 ^ n := by positivity
      rw [pow_succ]
      simp only [INITIAL_BACKOFF, one_mul]
      nlinarith [hp]
    · exact min_le_right _ _

/-- Witness for `c4_backoff_amended` at concrete inputs. -/
theorem c4_backoff_amended_witness :
    backoff zeroJitter 1 ≤ MAX_BACKOFF + 1 ∧
    backoff zeroJitter 1 ≤ backoff zeroJitter 2 ∧
    (backoff zeroJitter 3 ≤ backoff zeroJitter 4 ∧
      backoff zeroJitter 3 ≤ MAX_BACKOFF) :=
  ⟨c4_backoff_amended.1 zeroJitter zeroJitter_valid 1 (by norm_num),
   c4_backoff_amended.2.1 zeroJitter zeroJitter_valid 1
     (by norm_num [backoff, zeroJitter, INITIAL_BACKOFF, MAX_BACKOFF]),
   c4_backoff_amended.2.2 3⟩

/-! ## Supervisor iteration trace (`connect_with_retry` + `connect_to_server`)

One iteration of the `while True` loop of `connect_with_retry`
(mcp_pipe.py lines 220-245) performs, in program order:

```
if reconnect_attempt > 0: await asyncio.sleep(backoff)
await semaphore.acquire()
try:
    await connect_to_server(uri, target)   # dial; spawn; gather(pumps); finally: terminate
finally:
    semaphore.release()
```

`connect_to_server` (lines 247-326) dials the WebSocket inside the `try`;
on dial success it spawns the subprocess, runs the three pumps to
completion under `asyncio.gather` (the Active phase), and its own
`finally` terminates the subprocess before the exception propagates out.
Only then does `connect_with_retry`'s `finally` release the semaphore.
Status-sink writes are elided from the trace; they do not touch the
semaphore.  `dialOk` selects the successful-dial path (on which the spawn
succeeds and the pumps run) versus the failed-dial path. -/

inductive BridgeEvent where
  | sleep      -- backoff sleep before a reconnection attempt
  | acquire    -- semaphore.acquire()
  | dial       -- websockets.connect(uri)
  | spawn      -- subprocess.Popen(cmd)
  | pumpsRun   -- Active phase: asyncio.gather of the three pumps
  | terminate  -- finally of connect_to_server: terminate/wait/kill
  | release    -- finally of connect_with_retry: semaphore.release()
deriving BEq, DecidableEq

def connectToServerEvents (dialOk : Bool) : List BridgeEvent :=
  if dialOk then [.dial, .spawn, .pumpsRun, .terminate] else [.dial]

def iterationEvents (attempt : ℕ) (dialOk : Bool) : List BridgeEvent :=
  (if attempt > 0 then [BridgeEvent.sleep] else []) ++
    [BridgeEvent.acquire] ++ connectToServerEvents dialOk ++ [BridgeEvent.release]

/-- The bridge holds the semaphore while executing event `i` iff more
acquires than releases have happened up to and including event `i`. -/
def semHeldAt (evs : List BridgeEvent) (i : ℕ) : Bool :=
  (evs.take (i + 1)).count .acquire > (evs.take (i + 1)).count .release

@[reducible]
def SemNotHeldDuringActive (evs : List BridgeEvent) : Prop :=
  ∀ i : Fin evs.length, evs.get i = .pumpsRun → semHeldAt evs i.val = false

@[reducible]
def SemHeldDuringActive (evs : List BridgeEvent) : Prop :=
  ∀ i : Fin evs.length, evs.get i = .pumpsRun → semHeldAt evs i.val = true

/-- Claim C1 as stated: at every instant of the Active phase the bridge
does not hold the global concurrency semaphore. -/
def ClaimC1 : Prop :=
  ∀ (attempt : ℕ) (dialOk : Bool),
    SemNotHeldDuringActive (iterationEvents attempt dialOk)

/-- C1. The claim as stated is false: the semaphore is released in
`connect_with_retry`'s `finally`, i.e. only after `connect_to_server`
has returned — which is after the whole Active phase and the process
teardown — so during the Active phase the semaphore is held. -/
theorem c1_counterexample : ¬ ClaimC1 := by
  intro h
  exact absurd (h 0 true ⟨3, by decide⟩ (by decide)) (by decide)

/-- C1 (amended). The semaphore is acquired before the dial and released
only after `connect_to_server` resolves, i.e. after the Active phase and
the subprocess teardown: it is held throughout the Active phase (bounding
connecting-or-active bridges, not just bridges mid-handshake), and the
release is the last event of the iteration. -/
theorem c1_semaphore_amended :
    (∀ (attempt : ℕ) (dialOk : Bool),
      SemHeldDuringActive (iterationEvents attempt dialOk)) ∧
    (∀ (attempt : ℕ) (dialOk : Bool),
      (iterationEvents attempt dialOk).getLast? = some .release) := by
  constructor
  · intro attempt dialOk
    rcases Nat.eq_zero_or_pos attempt with h | h
    · subst h
      cases dialOk <;> decide
    · rw [show iterationEvents attempt dialOk =
          [BridgeEvent.sleep] ++ [BridgeEvent.acquire] ++
            connectToServerEvents dialOk ++ [BridgeEvent.release] from by
        simp [iterationEvents, h]]
      cases dialOk <;> decide
  · intro attempt dialOk
    rcases Nat.eq_zero_or_pos attempt with h | h
    · subst h
      cases dialOk <;> decide
    · rw [show iterationEvents attempt dialOk =
          [BridgeEvent.sleep] ++ [BridgeEvent.acquire] ++
            connectToServerEvents dialOk ++ [BridgeEvent.release] from by
        simp [iterationEvents, h]]
      cases dialOk <;> decide

/-- Witness for `c1_semaphore_amended` at a concrete trace. -/
theorem c1_semaphore_amended_witness :
    semHeldAt (iterationEvents 0 true) 3 = true ∧
    (iterationEvents 0 true).getLast? = some .release :=
  ⟨c1_semaphore_amended.1 0 true ⟨3, by decide⟩ (by decide),
   c1_semaphore_amended.2 0 true⟩

/-! ## The Active phase: three pumps under `asyncio.gather`

`connect_to_server` runs (mcp_pipe.py lines 296-300)

```
await asyncio.gather(
    pipe_websocket_to_process(websocket, process, target),
    pipe_process_to_websocket(process, websocket, target),
    pipe_process_stderr_to_terminal(process, target))
```

Each pump either raises at some instant (its loop re-raises every
exception) or returns cleanly (the stdout and stderr pumps `break` on an
empty read; lines 355-396).  With `return_exceptions` left at `False`,
`asyncio.gather`'s documented behaviour is: the first raised exception is
immediately propagated to the awaiting task, and the other awaitables are
NOT cancelled — they continue to run; if nothing raises, `gather` returns
once all awaitables have finished.  A pump is modelled by the instant it
stops together with whether it stopped by error or cleanly; pump `a` is
the inbound (WS→stdin) pump, `b` the outbound (stdout→WS) pump, `c` the
stderr pump. -/

inductive PumpStop where
  | clean (t : ℕ)  -- the pump returned (EOF `break`)
  | err (t : ℕ)    -- the pump raised
deriving BEq, DecidableEq

def stopTime : PumpStop → ℕ
  | .clean t => t
  | .err t => t

def errTime? : PumpStop → Option ℕ
  | .err t => some t
  | .clean _ => none

/-- The instant the `await asyncio.gather(...)` resolves: the earliest
pump error if any pump errors, else the latest clean finish. -/
def gatherEnd (a b c : PumpStop) : ℕ :=
  match ([a, b, c].filterMap errTime?).min? with
  | some t => t
  | none => ([a, b, c].map stopTime).foldl max 0

/-- The instant a pump actually stops running: its own stop time —
`gather` never cancels a sibling pump. -/
def runEnd (p : PumpStop) : ℕ := stopTime p

/-- The instant the claim says the Active phase ends: the first stop that
is an error (any pump) or a clean EOF of the inbound/outbound pump. -/
def claimC2End (a b c : PumpStop) : ℕ :=
  match errTime? c with
  | some t => min (min (stopTime a) (stopTime b)) t
  | none => min (stopTime a) (stopTime b)

/-- Claim C2 as stated: the Active phase ends at the first qualifying
pump stop, and no pump is left running after the Active phase ends. -/
def ClaimC2 : Prop :=
  ∀ a b c : PumpStop,
    gatherEnd a b c = claimC2End a b c ∧
    ∀ p ∈ [a, b, c], runEnd p ≤ gatherEnd a b c

theorem le_foldl_max (l : List ℕ) (a : ℕ) :
    (∀ x ∈ l, x ≤ l.foldl max a) ∧ a ≤ l.foldl max a := by
  induction l generalizing a with
  | nil => simp
  | cons y ys ih =>
    simp only [List.foldl_cons]
    obtain ⟨h1, h2⟩ := ih (max a y)
    refine ⟨?_, le_trans (le_max_left a y) h2⟩
    intro x hx
    rcases List.mem_cons.mp hx with rfl | hx
    · exact le_trans (le_max_right _ _) h2
    · exact h1 x hx

/-- C2. The claim as stated is false: a clean EOF of the outbound pump
does not end the Active phase (it only ends that one pump), and a raising
pump does not cancel its siblings.  With the outbound pump hitting EOF at
instant 1, the stderr pump at 9 and the inbound pump raising at 5, the
gather resolves at 5, not 1, and the stderr pump is still running at
instants past 5. -/
theorem c2_counterexample : ¬ ClaimC2 := by
  intro h
  obtain ⟨h1, h2⟩ := h (.err 5) (.clean 1) (.clean 9)
  have h3 := h2 (.clean 9) (by simp)
  rw [show gatherEnd (.err 5) (.clean 1) (.clean 9) = 5 from by decide] at h3
  exact absurd h3 (by decide)

/-- C2 (amended). The Active phase (`gather`) ends at the earliest pump
error when at least one pump errors, and only when every pump has stopped
when none errors; sibling pumps are never cancelled — each pump runs until
its own stop time, which may lie after the Active phase has ended. -/
theorem c2_gather_amended :
    (∀ a b c : PumpStop, ∀ t : ℕ,
      ([a, b, c].filterMap errTime?).min? = some t →
      gatherEnd a b c = t) ∧
    (∀ a b c : PumpStop, [a, b, c].filterMap errTime? = [] →
      ∀ p ∈ [a, b, c], stopTime p ≤ gatherEnd a b c) ∧
    (∀ p : PumpStop, runEnd p = stopTime p) := by
  refine ⟨?_, ?_, fun _ => rfl⟩
  · intro a b c t ht
    simp only [gatherEnd, ht]
  · intro a b c hne p hp
    simp only [gatherEnd, hne, List.min?_nil]
    exact (le_foldl_max _ 0).1 (stopTime p) (List.mem_map_of_mem stopTime hp)

/-- Witness for `c2_gather_amended` at concrete pump outcomes. -/
theorem c2_gather_amended_witness :
    gatherEnd (.err 5) (.clean 1) (.clean 9) = 5 ∧
    stopTime (.clean 9) ≤ gatherEnd (.clean 1) (.clean 2) (.clean 9) ∧
    runEnd (.clean 9) = stopTime (.clean 9) :=
  ⟨c2_gather_amended.1 (.err 5) (.clean 1) (.clean 9) 5 (by rfl),
   c2_gather_amended.2.1 (.clean 1) (.clean 2) (.clean 9) (by rfl)
     (.clean 9) (by simp),
   c2_gather_amended.2.2 (.clean 9)⟩

/-! ## Subprocess teardown (`connect_to_server`, mcp_pipe.py lines 249-326)

```
process = None
try:
    async with websockets.connect(uri) as websocket:   # dial
        ...
        cmd, env = build_server_command(target)         # may raise
        process = subprocess.Popen(...)
        ...
        await asyncio.gather(...)                       # the pumps
except ...:
    raise
finally:
    if process:
        process.terminate()
        try: process.wait(timeout=5)
        except subprocess.TimeoutExpired: process.kill()
```

and the `finally` of `pipe_websocket_to_process` (lines 350-353):

```
if not process.stdin.closed:
    process.stdin.close()
```

A process handle is modelled by its liveness, whether our end of its stdin
pipe is open, and whether it exits within the 5-second `wait` after
`terminate()` (`termResponsive`).  `ConnectPath` enumerates the control
paths of `connect_to_server`: the dial raised (no `Popen` was reached),
`build_server_command` raised (ditto), or the session ran and ended —
whether the pumps raised or not, the same `finally` teardown runs. -/

structure Proc where
  alive : Bool
  stdinOpen : Bool
  termResponsive : Bool
deriving DecidableEq

/-- `finally` of `pipe_websocket_to_process`: close stdin if still open. -/
def closeStdin (p : Proc) : Proc := { p with stdinOpen := false }

/-- `finally` of `connect_to_server`: `terminate()`, `wait(timeout=5)`,
and `kill()` on `TimeoutExpired`. -/
def terminateStep (p : Proc) : Proc :=
  let afterWait := if p.termResponsive then { p with alive := false } else p
  if afterWait.alive then { afterWait with alive := false } else afterWait

inductive ConnectPath where
  | dialFail                      -- websockets.connect raised
  | resolveFail                   -- build_server_command raised
  | sessionEnd (pumpsRaised : Bool)  -- pumps ran; teardown runs either way
deriving DecidableEq

/-- The process handle left behind by one `connect_to_server` call:
`none` when no subprocess was spawned on that path. -/
def connect_final_proc : ConnectPath → Proc → Option Proc
  | .dialFail, _ => none
  | .resolveFail, _ => none
  | .sessionEnd _, p => some (terminateStep (closeStdin p))

/-- How many subprocesses one `connect_to_server` call spawns:
`subprocess.Popen` is reached only after the dial succeeded. -/
def spawnsOf : ConnectPath → ℕ
  | .dialFail => 0
  | .resolveFail => 0
  | .sessionEnd _ => 1

/-- C5. On every path of `connect_to_server` that spawned a subprocess
the teardown runs (success or failure of the pumps alike) and leaves the
subprocess dead — terminated within the wait, or force-killed — with its
stdin closed; the teardown applied is exactly stdin-close followed by
terminate/wait/kill. -/
theorem c5_closing_teardown :
    (∀ (path : ConnectPath) (p q : Proc),
      connect_final_proc path p = some q →
      q.alive = false ∧ q.stdinOpen = false) ∧
    (∀ (pumpsRaised : Bool) (p : Proc),
      connect_final_proc (.sessionEnd pumpsRaised) p =
        some (terminateStep (closeStdin p))) := by
  constructor
  · intro path p q h
    cases path with
    | dialFail => simp [connect_final_proc] at h
    | resolveFail => simp [connect_final_proc] at h
    | sessionEnd b =>
      simp only [connect_final_proc, Option.some.injEq] at h
      subst h
      cases p with
      | mk alive stdinO resp =>
        cases alive <;> cases resp <;> simp [terminateStep, closeStdin]
  · intro b p
    rfl

/-- Witness for `c5_closing_teardown`: an unresponsive live process is
force-killed and its stdin closed. -/
theorem c5_closing_teardown_witness :
    ((terminateStep (closeStdin ⟨true, true, false⟩)).alive = false ∧
      (terminateStep (closeStdin ⟨true, true, false⟩)).stdinOpen = false) ∧
    connect_final_proc (.sessionEnd true) ⟨true, true, false⟩ =
      some (terminateStep (closeStdin ⟨true, true, false⟩)) :=
  ⟨c5_closing_teardown.1 (.sessionEnd true) ⟨true, true, false⟩
      (terminateStep (closeStdin ⟨true, true, false⟩)) rfl,
   c5_closing_teardown.2 true ⟨true, true, false⟩⟩

/-- C8. A failed dial spawns no subprocess (`process` is still `None`
when the exception propagates), the iteration trace of a failed dial
contains no spawn event, a successful dial's trace contains exactly one,
and across any number of failed dials followed by one successful dial
exactly one subprocess is spawned in total. -/
theorem c8_spawn_once :
    (∀ p : Proc, connect_final_proc ConnectPath.dialFail p = none) ∧
    (∀ attempt : ℕ,
      (iterationEvents attempt false).count BridgeEvent.spawn = 0) ∧
    (∀ attempt : ℕ,
      (iterationEvents attempt true).count BridgeEvent.spawn = 1) ∧
    (∀ (n : ℕ) (b : Bool),
      ((List.replicate n ConnectPath.dialFail
        ++ [ConnectPath.sessionEnd b]).map spawnsOf).sum = 1) := by
  refine ⟨fun _ => rfl, ?_, ?_, ?_⟩
  · intro attempt
    rcases Nat.eq_zero_or_pos attempt with h | h
    · subst h
      decide
    · rw [show iterationEvents attempt false =
          [BridgeEvent.sleep] ++ [BridgeEvent.acquire] ++
            connectToServerEvents false ++ [BridgeEvent.release] from by
        simp [iterationEvents, h]]
      decide
  · intro attempt
    rcases Nat.eq_zero_or_pos attempt with h | h
    · subst h
      decide
    · rw [show iterationEvents attempt true =
          [BridgeEvent.sleep] ++ [BridgeEvent.acquire] ++
            connectToServerEvents true ++ [BridgeEvent.release] from by
        simp [iterationEvents, h]]
      decide
  · intro n b
    simp [List.map_append, List.map_replicate, spawnsOf]

/-! ## String helpers

`server_name.split('::', 1)` and `str.lower()` are modelled by
structurally recursive functions on the character list of a `String`
(ASCII lowering; every type tag compared by the code is ASCII). -/

/-- `leadsWith sep l` is true iff `l` starts with `sep`. -/
def leadsWith : List Char → List Char → Bool
  | [], _ => true
  | _ :: _, [] => false
  | d :: ds, c :: cs => d == c && leadsWith ds cs

/-- Split at the first occurrence of `sep`: `some (before, after)`, or
`none` when `sep` does not occur (Python's `sep in s` test). -/
def splitFirst (sep : List Char) : List Char → Option (List Char × List Char)
  | [] => none
  | c :: cs =>
    if leadsWith sep (c :: cs) then some ([], (c :: cs).drop sep.length)
    else
      match splitFirst sep cs with
      | some pr => some (c :: pr.1, pr.2)
      | none => none

/-- Python `s.split(sep, 1)` when `sep` occurs in `s`. -/
def pySplitOnce (sep s : String) : Option (String × String) :=
  (splitFirst sep.data s.data).map (fun pr => (String.mk pr.1, String.mk pr.2))

/-- `server_name.split('::', 1)[0]` when `'::' in server_name`, else
`server_name` itself. -/
def baseName (s : String) : String :=
  match pySplitOnce "::" s with
  | some pr => pr.1
  | none => s

/-- `server_name.split('::', 1)[1]` when `'::' in server_name`. -/
def endpointSuffix (s : String) : Option String :=
  (pySplitOnce "::" s).map (fun pr => pr.2)

def lowerChar (c : Char) : Char :=
  if 'A' ≤ c ∧ c ≤ 'Z' then Char.ofNat (c.toNat + 32) else c

/-- Python `str.lower()` (ASCII). -/
def pyLower (s : String) : String := String.mk (s.data.map lowerChar)

/-! ## Command resolver (`build_server_command`, mcp_pipe.py lines 416-475)

Dictionaries (the config's server map, `os.environ`, the child
environment) are modelled as functions `String → Option _`; the entry's
`env` and `headers` keep their iteration order as association lists. -/

abbrev Env := String → Option String

/-- `child_env[k] = v`. -/
def setEnv (e : Env) (k v : String) : Env :=
  fun k' => if k' = k then some v else e k'

/-- `child_env = os.environ.copy()`, then `child_env[str(k)] = str(v)`
for each override pair in order. -/
def childEnv (osEnv : Env) (overrides : List (String × String)) : Env :=
  overrides.foldl (fun e kv => setEnv e kv.1 kv.2) osEnv

/-- The last value bound to `k` among the overrides (the one a Python
dict iteration would leave in place). -/
def lookupLast (l : List (String × String)) (k : String) : Option String :=
  (l.reverse.find? (fun kv => kv.1 == k)).map (fun kv => kv.2)

theorem childEnv_lookup (ov : List (String × String)) :
    ∀ (osEnv : Env) (k : String),
      childEnv osEnv ov k =
        match lookupLast ov k with
        | some v => some v
        | none => osEnv k := by
  induction ov with
  | nil => intro osEnv k; rfl
  | cons hd tl ih =>
    intro osEnv k
    have hl : lookupLast (hd :: tl) k =
        match lookupLast tl k with
        | some v => some v
        | none => if hd.1 == k then some hd.2 else none := by
      simp only [lookupLast, List.reverse_cons, List.find?_append]
      cases htl : List.find? (fun kv => kv.1 == k) tl.reverse with
      | some v => simp [htl]
      | none =>
        simp [htl, List.find?]
        by_cases h : hd.1 = k
        · simp [h]
        · have hb : (hd.1 == k) = false := beq_eq_false_iff_ne.mpr h
          simp [h, hb]
    show childEnv (setEnv osEnv hd.1 hd.2) tl k = _
    rw [ih (setEnv osEnv hd.1 hd.2) k, hl]
    cases h : lookupLast tl k with
    | some v => simp
    | none =>
      simp only [setEnv]
      by_cases hk : hd.1 == k
      · have hke : k = hd.1 := (eq_of_beq hk).symm
        simp [hk, hke]
      · have hke : ¬ (k = hd.1) := fun e => hk (by simp [e])
        simp [hk, hke]

/-- A configured server entry (`config.mcpServers[name]`); `none` models
an absent JSON key. -/
structure ServerEntry where
  disabled : Bool := false
  type? : Option String := none
  transportType? : Option String := none
  command? : Option String := none
  args? : Option (List String) := none
  url? : Option String := none
  env : List (String × String) := []
  headers : List (String × String) := []
deriving DecidableEq

/-- Python `a or b` on an optional string: absent or empty falls through. -/
def pyOrStr (a : Option String) (b : String) : String :=
  match a with
  | some s => if s = "" then b else s
  | none => b

/-- `typ = (entry.get("type") or entry.get("transportType") or "stdio").lower()`. -/
def resolvedType (e : ServerEntry) : String :=
  pyLower (pyOrStr e.type? (pyOrStr e.transportType? "stdio"))

inductive ResolveError where
  | disabledServer
  | missingCommand
  | missingUrl
  | unsupportedType (t : String)
  | scriptNotFound
deriving DecidableEq

/-- `build_server_command(target)`: resolve a target to the subprocess
command line and child environment, or raise. -/
def build_server_command (servers : String → Option ServerEntry)
    (osEnv : Env) (pathExists : String → Bool)
    (sysExecutable target : String) :
    Except ResolveError (List String × Env) :=
  let t := baseName target
  match servers t with
  | some entry =>
    if entry.disabled then .error .disabledServer
    else
      let typ := resolvedType entry
      let env := childEnv osEnv entry.env
      if typ = "stdio" then
        match entry.command? with
        | some c =>
          if c = "" then .error .missingCommand
          else .ok (c :: entry.args?.getD [], env)
        | none => .error .missingCommand
      else if typ = "sse" ∨ typ = "http" ∨ typ = "streamablehttp" then
        match entry.url? with
        | some u =>
          if u = "" then .error .missingUrl
          else
            .ok ([sysExecutable, "-m", "mcp_proxy"] ++
              (if typ = "http" ∨ typ = "streamablehttp" then
                ["--transport", "streamablehttp"] else []) ++
              entry.headers.foldl (fun acc kv => acc ++ ["-H", kv.1, kv.2]) [] ++
              [u], env)
        | none => .error .missingUrl
      else .error (.unsupportedType typ)
  | none =>
    if pathExists t then .ok ([sysExecutable, t], osEnv)
    else .error .scriptNotFound

/-- C7. A configured stdio entry resolves to `command :: args` (args
defaulting to `[]`) with the child environment being the process
environment overridden by the entry's `env` (entry wins on collision);
a missing command is an error. -/
theorem c7_stdio_resolution :
    ∀ (servers : String → Option ServerEntry) (osEnv : Env)
      (pathExists : String → Bool) (sysExecutable target : String)
      (entry : ServerEntry),
      servers (baseName target) = some entry →
      entry.disabled = false →
      resolvedType entry = "stdio" →
      ((entry.command? = none →
          build_server_command servers osEnv pathExists sysExecutable target =
            .error .missingCommand) ∧
       (∀ c, entry.command? = some c → c ≠ "" →
          build_server_command servers osEnv pathExists sysExecutable target =
            .ok (c :: entry.args?.getD [], childEnv osEnv entry.env)) ∧
       (∀ k v, lookupLast entry.env k = some v →
          childEnv osEnv entry.env k = some v) ∧
       (∀ k, lookupLast entry.env k = none →
          childEnv osEnv entry.env k = osEnv k)) := by
  intro servers osEnv pathExists sysExecutable target entry hs hd ht
  refine ⟨?_, ?_, ?_, ?_⟩
  · intro hc
    simp [build_server_command, hs, hd, ht, hc]
  · intro c hc hne
    simp [build_server_command, hs, hd, ht, hc, hne]
  · intro k v hk
    rw [childEnv_lookup, hk]
  · intro k hk
    rw [childEnv_lookup, hk]

/-- Concrete fixtures for the resolver theorems. -/
def egEntry : ServerEntry :=
  { command? := some "calc_server", args? := some ["--fast"],
    env := [("A", "1")] }

def egServers : String → Option ServerEntry :=
  fun n => if n = "calc" then some egEntry else none

def egOsEnv : Env :=
  fun k => if k = "A" then some "0" else if k = "PATH" then some "/bin" else none

/-- Witness for `c7_stdio_resolution` at a concrete configuration. -/
theorem c7_stdio_resolution_witness :
    build_server_command egServers egOsEnv (fun _ => false) "python" "calc" =
      .ok (["calc_server", "--fast"], childEnv egOsEnv [("A", "1")]) ∧
    childEnv egOsEnv [("A", "1")] "A" = some "1" ∧
    childEnv egOsEnv [("A", "1")] "PATH" = egOsEnv "PATH" :=
  ⟨(c7_stdio_resolution egServers egOsEnv (fun _ => false) "python" "calc"
      egEntry (by decide) rfl (by decide)).2.1 "calc_server" rfl (by decide),
   (c7_stdio_resolution egServers egOsEnv (fun _ => false) "python" "calc"
      egEntry (by decide) rfl (by decide)).2.2.1 "A" "1" (by decide),
   (c7_stdio_resolution egServers egOsEnv (fun _ => false) "python" "calc"
      egEntry (by decide) rfl (by decide)).2.2.2 "PATH" (by decide)⟩

/-- The process-wide mutable state `build_server_command` can see:
`os.environ`. -/
structure PyState where
  environ : Env

/-- `build_server_command` as it actually executes against the process
state: it reads `os.environ` (both the config branch and the script-path
fallback call `os.environ.copy()` and apply overrides to the copy only)
and never writes it back. -/
def build_server_command_st (servers : String → Option ServerEntry)
    (pathExists : String → Bool) (sysExecutable target : String) :
    StateM PyState (Except ResolveError (List String × Env)) := do
  let s ← get
  pure (build_server_command servers s.environ pathExists sysExecutable target)

/-- C9. Resolution never mutates the parent process environment: running
`build_server_command` from any state returns that state unchanged, and
its value is the pure function of the initial environment. -/
theorem c9_environ_unchanged :
    ∀ (servers : String → Option ServerEntry) (pathExists : String → Bool)
      (sysExecutable target : String) (s : PyState),
      (build_server_command_st servers pathExists sysExecutable target).run s =
        (build_server_command servers s.environ pathExists sysExecutable target,
          s) := by
  intro servers pathExists sysExecutable target s
  rfl

/-- C10. An entry with neither `type` nor `transportType` is treated as
stdio; a nonempty `type` is compared lowercased; `transportType` is used
as the alias when `type` is absent; and the both-absent entry actually
resolves through the stdio branch. -/
theorem c10_type_defaulting :
    ∀ e : ServerEntry,
      (e.type? = none → e.transportType? = none → resolvedType e = "stdio") ∧
      (∀ s, e.type? = some s → s ≠ "" → resolvedType e = pyLower s) ∧
      (∀ s, e.type? = none → e.transportType? = some s → s ≠ "" →
        resolvedType e = pyLower s) ∧
      (∀ (servers : String → Option ServerEntry) (osEnv : Env)
        (pathExists : String → Bool) (sysExecutable target c : String),
        servers (baseName target) = some e → e.disabled = false →
        e.type? = none → e.transportType? = none →
        e.command? = some c → c ≠ "" →
        build_server_command servers osEnv pathExists sysExecutable target =
          .ok (c :: e.args?.getD [], childEnv osEnv e.env)) := by
  intro e
  refine ⟨?_, ?_, ?_, ?_⟩
  · intro h1 h2
    simp [resolvedType, pyOrStr, h1, h2]
    decide
  · intro s h1 h2
    simp [resolvedType, pyOrStr, h1, h2]
  · intro s h1 h2 h3
    simp [resolvedType, pyOrStr, h1, h2, h3]
  · intro servers osEnv pathExists sysExecutable target c hs hd h1 h2 hc hne
    have ht : resolvedType e = "stdio" := by
      simp [resolvedType, pyOrStr, h1, h2]
      decide
    simp [build_server_command, hs, hd, ht, hc, hne]

def egEntryNoType : ServerEntry := { command? := some "srv" }

def egEntryUpper : ServerEntry := { type? := some "STDIO" }

def egEntryAlias : ServerEntry := { transportType? := some "SSE" }

def egServersNoType : String → Option ServerEntry :=
  fun n => if n = "calc" then some egEntryNoType else none

/-- Witness for `c10_type_defaulting` at concrete entries. -/
theorem c10_type_defaulting_witness :
    resolvedType egEntryNoType = "stdio" ∧
    resolvedType egEntryUpper = pyLower "STDIO" ∧
    resolvedType egEntryAlias = pyLower "SSE" ∧
    build_server_command egServersNoType egOsEnv (fun _ => false) "python"
        "calc" =
      .ok (["srv"], childEnv egOsEnv []) :=
  ⟨(c10_type_defaulting egEntryNoType).1 rfl rfl,
   (c10_type_defaulting egEntryUpper).2.1 "STDIO" rfl (by decide),
   (c10_type_defaulting egEntryAlias).2.2.1 "SSE" rfl rfl (by decide),
   (c10_type_defaulting egEntryNoType).2.2.2 egServersNoType egOsEnv
     (fun _ => false) "python" "calc" "srv" (by decide) rfl rfl rfl rfl
     (by decide)⟩

/-! ## Status sink (`update_tool_status`, mcp_pipe.py lines 89-138)

The status file's two dictionaries (`data["tools"]`, `data["endpoints"]`)
are modelled as functions `String → Option _`.  `update_tool_status`
splits a `server::endpoint` target, merges the incoming tools into the
record stored under the *base* server name, and additionally records the
merged list under `endpoints[endpoint].server_tools[base]`.  Tool lists
produced by the code are name-unique, so the Python dict-based merge is
modelled by an order-preserving upsert per incoming tool. -/

structure Tool where
  name : String
  description : String
  inputSchema : String
deriving DecidableEq

structure ToolRecord where
  status : String
  error : String
  tools : List Tool
  lastUpdated : ℕ
deriving DecidableEq

structure EndpointRecord where
  serverTools : String → Option (List Tool)
  lastUpdated : ℕ

structure StatusData where
  endpoints : String → Option EndpointRecord
  tools : String → Option ToolRecord

/-- `d[k] = v` on a dictionary. -/
def updFn {α : Type} (f : String → Option α) (k : String) (v : α) :
    String → Option α :=
  fun k' => if k' = k then some v else f k'

/-- `merged[t['name']] = t`: replace the same-named tool in place, else
append. -/
def upsertTool (l : List Tool) (t : Tool) : List Tool :=
  if l.any (fun u => u.name == t.name) then
    l.map (fun u => if u.name == t.name then t else u)
  else l ++ [t]

/-- Merge incoming tools into the existing list by name (newer wins). -/
def mergeTools (existing incoming : List Tool) : List Tool :=
  incoming.foldl upsertTool existing

/-- `data.get("tools", {}).get(base_name, {}).get("tools", [])`. -/
def existingToolsOf (data : StatusData) (base : String) : List Tool :=
  match data.tools base with
  | some r => r.tools
  | none => []

def update_tool_status (data : StatusData) (serverName status error : String)
    (tools? : Option (List Tool)) (now : ℕ) : StatusData :=
  let base := baseName serverName
  let merged := mergeTools (existingToolsOf data base) (tools?.getD [])
  let data1 : StatusData :=
    { data with tools := updFn data.tools base ⟨status, error, merged, now⟩ }
  match endpointSuffix serverName with
  | some ep =>
    let epRec := (data1.endpoints ep).getD ⟨fun _ => none, 0⟩
    { data1 with
      endpoints := updFn data1.endpoints ep
        ⟨updFn epRec.serverTools base merged, now⟩ }
  | none => data1

/-- Claim C6 as stated: each upsert is keyed by the full Target, so after
an update for target T the record under key T itself is the updated one. -/
def ClaimC6 : Prop :=
  ∀ (data : StatusData) (serverName status error : String)
    (tools? : Option (List Tool)) (now : ℕ),
    (update_tool_status data serverName status error tools? now).tools
        serverName =
      some ⟨status, error,
        mergeTools (existingToolsOf data serverName) (tools?.getD []), now⟩

def emptyStatus : StatusData := ⟨fun _ => none, fun _ => none⟩

def egTool : Tool := ⟨"add", "adds numbers", "object"⟩

/-- C6. The claim as stated is false: `update_tool_status` deliberately
splits `server::endpoint` and keys the tools record by the *base* server
name, so an update for target `"s::a"` leaves no record under the key
`"s::a"` (it is stored under `"s"`, shared with `"s::b"`). -/
theorem c6_counterexample : ¬ ClaimC6 := by
  intro h
  exact absurd (h emptyStatus "s::a" "running" "" (some [egTool]) 0)
    (by decide)

/-- C6 (amended). Each upsert is keyed by the base server name (the part
of the Target before the first `::`): the record under the base key is
replaced with the status, error, merged tools and timestamp; every other
key is untouched (so two Targets differing only in their endpoint share
one record instead of having separate ones); and when the Target carries
an endpoint, the merged list is also recorded under
`endpoints[endpoint].server_tools[base]`. -/
theorem c6_status_key_amended :
    ∀ (data : StatusData) (serverName status error : String)
      (tools? : Option (List Tool)) (now : ℕ),
      ((update_tool_status data serverName status error tools? now).tools
          (baseName serverName) =
        some ⟨status, error,
          mergeTools (existingToolsOf data (baseName serverName))
            (tools?.getD []), now⟩) ∧
      (∀ k, k ≠ baseName serverName →
        (update_tool_status data serverName status error tools? now).tools k =
          data.tools k) ∧
      (∀ ep, endpointSuffix serverName = some ep →
        ∃ r, (update_tool_status data serverName status error tools? now).endpoints
            ep = some r ∧
          r.serverTools (baseName serverName) =
            some (mergeTools (existingToolsOf data (baseName serverName))
              (tools?.getD []))) := by
  intro data serverName status error tools? now
  cases hep : endpointSuffix serverName with
  | none =>
    refine ⟨?_, ?_, ?_⟩
    · simp [update_tool_status, hep, updFn]
    · intro k hk
      simp [update_tool_status, hep, updFn, hk]
    · intro ep hep'
      exact Option.noConfusion hep'
  | some ep =>
    refine ⟨?_, ?_, ?_⟩
    · simp [update_tool_status, hep, updFn]
    · intro k hk
      simp [update_tool_status, hep, updFn, hk]
    · intro ep' hep'
      obtain rfl : ep = ep' := by injection hep'
      refine ⟨⟨updFn ((data.endpoints ep).getD ⟨fun _ => none, 0⟩).serverTools
          (baseName serverName)
          (mergeTools (existingToolsOf data (baseName serverName))
            (tools?.getD [])), now⟩, ?_, ?_⟩
      · simp [update_tool_status, hep, updFn]
      · simp [updFn]

/-- Witness for `c6_status_key_amended` at a concrete update. -/
theorem c6_status_key_amended_witness :
    ((update_tool_status emptyStatus "s::a" "running" "" (some [egTool]) 0).tools
        (baseName "s::a") =
      some ⟨"running", "",
        mergeTools (existingToolsOf emptyStatus (baseName "s::a")) [egTool],
        0⟩) ∧
    ((update_tool_status emptyStatus "s::a" "running" "" (some [egTool]) 0).tools
        "other" = emptyStatus.tools "other") ∧
    (∃ r, (update_tool_status emptyStatus "s::a" "running" "" (some [egTool])
          0).endpoints "a" = some r ∧
      r.serverTools (baseName "s::a") =
        some (mergeTools (existingToolsOf emptyStatus (baseName "s::a"))
          [egTool])) :=
  ⟨(c6_status_key_amended emptyStatus "s::a" "running" "" (some [egTool]) 0).1,
   (c6_status_key_amended emptyStatus "s::a" "running" "" (some [egTool]) 0).2.1
     "other" (by decide),
   (c6_status_key_amended emptyStatus "s::a" "running" "" (some [egTool]) 0).2.2
     "a" (by decide)⟩

end McpPipe
